import Mathlib

/-!
Shallow embedding of `parse.py`, a streaming binary transaction-log decoder.

Modelling conventions:
  * A byte stream is a `List Nat`; byte values are taken modulo 256 at every
    decode site, mirroring the fact that Python `bytes` elements lie in 0..255.
  * Python `struct` fixed-width fields decode through `beNat` (big-endian
    accumulation) and `toSigned` (two's-complement reinterpretation); the
    source formats `b`, `i`, `q`, `l` are all signed, `d` is an IEEE-754
    binary64 double.
  * Python floats are modelled as exact rationals: `f64ofBits` maps a 64-bit
    pattern to the exact rational value of the finite double it denotes
    (infinities and NaNs, biased exponent 2047, lie outside this exact model
    and are mapped to 0; no property below touches such patterns), and float
    addition/subtraction is modelled as exact rational arithmetic.
  * `struct.error` / `UnicodeDecodeError` become `Option.none`; a generator
    that raises after yielding some rows is modelled by pairing the yielded
    rows with an error flag.
  * The source feeds `row_parser` a `BufferedReader` with buffer size 1, so
    `peek(1)` returns exactly one byte, or zero bytes at end of stream; the
    peek-then-unpack of the discriminant therefore succeeds exactly on a
    nonempty remaining stream.
-/

/-- Two's-complement reinterpretation of `n` (assumed `< 2^w`) as a signed
`w`-bit integer, as Python `struct` does for the formats `b`, `i`, `q`, `l`. -/
def toSigned (w n : Nat) : Int :=
  if n < 2 ^ (w - 1) then (n : Int) else (n : Int) - 2 ^ w

/-- Big-endian accumulation of a byte list into a natural number; each element
is reduced modulo 256, as Python bytes are. -/
def beNat (bs : List Nat) : Nat :=
  bs.foldl (fun acc b => acc * 256 + b % 256) 0

/-- Exact rational value of an IEEE-754 binary64 bit pattern.  Finite patterns
map to their exact dyadic value.  Patterns with biased exponent 2047
(infinities and NaNs) have no rational value and are mapped to 0 here; they
are outside the scope of every property in this development. -/
def f64ofBits (bits : Nat) : ℚ :=
  let b : Nat := bits % 2 ^ 64
  let sign : ℚ := if 2 ^ 63 ≤ b then -1 else 1
  let e : Nat := (b / 2 ^ 52) % 2 ^ 11
  let m : Nat := b % 2 ^ 52
  if e = 2047 then 0
  else if e = 0 then sign * ((m : ℚ) * 2) / 2 ^ 1075
  else sign * (((2 ^ 52 + m : Nat) : ℚ)) * 2 ^ e / 2 ^ 1075

-- Event discriminant constants from the source.
def CREDIT : Int := 0

def DEBIT : Int := 1

def START_AUTOPAY : Int := 2

def STOP_AUTOPAY : Int := 3

/-- `TRANSACTIONS = [CREDIT, DEBIT]` from the source. -/
def TRANSACTIONS : List Int := [CREDIT, DEBIT]

/-- The `Transaction` namedtuple: fields of `struct '>biqd'` (signed 8-bit
event, signed 32-bit timestamp, signed 64-bit user id, binary64 amount,
all big-endian). -/
structure Transaction where
  event : Int
  timestamp : Int
  user_id : Int
  amount : ℚ
deriving DecidableEq, Repr

/-- The `Instruction` namedtuple: fields of `struct '>biq'`. -/
structure Instruction where
  event : Int
  timestamp : Int
  user_id : Int
deriving DecidableEq, Repr

/-- A value yielded by the row generator: either a `Transaction` or an
`Instruction` namedtuple. -/
inductive Row where
  | tx : Transaction → Row
  | instr : Instruction → Row
deriving DecidableEq, Repr

/-- Duck-typed `.event` access on a yielded row. -/
def Row.event : Row → Int
  | .tx t => t.event
  | .instr i => i.event

/-- Duck-typed `.user_id` access on a yielded row. -/
def Row.user_id : Row → Int
  | .tx t => t.user_id
  | .instr i => i.user_id

/-- Duck-typed `.amount` access on a yielded row; `none` models the
`AttributeError` an `Instruction` namedtuple raises, since it has no
`amount` field. -/
def Row.amount : Row → Option ℚ
  | .tx t => some t.amount
  | .instr _ => none

/-- `transaction_reader`: `Transaction._make(transaction_struct.unpack(data))`.
`unpack` demands a buffer of exactly `transaction_struct.size = 21` bytes and
raises `struct.error` (here `none`) otherwise; format `'>biqd'` splits the
frame at offsets 0,1,5,13 with the stated signedness. -/
def transaction_reader (data : List Nat) : Option Transaction :=
  if data.length = 21 then
    some { event := toSigned 8 (beNat (data.take 1))
           timestamp := toSigned 32 (beNat ((data.drop 1).take 4))
           user_id := toSigned 64 (beNat ((data.drop 5).take 8))
           amount := f64ofBits (beNat (data.drop 13)) }
  else none

/-- `instruction_reader`: `Instruction._make(instruction_struct.unpack (data))`
with `instruction_struct.size = 13` and format `'>biq'`. -/
def instruction_reader (data : List Nat) : Option Instruction :=
  if data.length = 13 then
    some { event := toSigned 8 (beNat (data.take 1))
           timestamp := toSigned 32 (beNat ((data.drop 1).take 4))
           user_id := toSigned 64 (beNat (data.drop 5)) }
  else none

/-- One loop of `row_parser`, with explicit fuel to make the definition
structurally recursive (each successful iteration consumes at least 13 bytes,
so `data.length` is always enough fuel; see `rowParserF_irrel`).

Per iteration the source:
  1. peeks 1 byte and unpacks it with `type_struct` (`'b'`, signed); with the
     buffer-size-1 reader this raises (ending the generator normally, error
     flag `false`) exactly when no bytes remain;
  2. if the signed discriminant is in `TRANSACTIONS`, reads
     `min 21 remaining` bytes (`BufferedReader.read`) and unpacks them as a
     `Transaction`, otherwise reads `min 13 remaining` bytes and unpacks them
     as an `Instruction`.  These unpack calls sit OUTSIDE the
     `try/except StructError`: on a short read they raise an uncaught
     `struct.error`, modelled by the error flag `true` paired with the rows
     yielded so far. -/
def rowParserF : Nat → List Nat → List Row × Bool
  | 0, _ => ([], false)
  | _ + 1, [] => ([], false)
  | fuel + 1, b :: rest =>
    if toSigned 8 (b % 256) ∈ TRANSACTIONS then
      match transaction_reader ((b :: rest).take 21) with
      | some t =>
        let r := rowParserF fuel ((b :: rest).drop 21)
        (Row.tx t :: r.1, r.2)
      | none => ([], true)
    else
      match instruction_reader ((b :: rest).take 13) with
      | some i =>
        let r := rowParserF fuel ((b :: rest).drop 13)
        (Row.instr i :: r.1, r.2)
      | none => ([], true)

/-- `row_parser` applied to a stream with `data` bytes remaining: the list of
rows the generator yields, paired with `true` iff iteration ends by raising
an uncaught `struct.error` (short frame at the read step) rather than by the
caught discriminant-peek failure. -/
def rowParser (data : List Nat) : List Row × Bool :=
  rowParserF data.length data

/-- Continuation-byte test for strict UTF-8 decoding: `0x80 ≤ b ≤ 0xBF`. -/
def utf8Cont (b : Nat) : Bool :=
  128 ≤ b % 256 && b % 256 < 192

/-- Strict UTF-8 decoding of a byte list into code points, as Python
`bytes.decode('UTF-8')`: rejects truncated sequences, stray continuation
bytes, overlong encodings, surrogates and values above U+10FFFF; `none`
models `UnicodeDecodeError`. -/
def utf8Decode : List Nat → Option (List Char)
  | [] => some []
  | b0 :: rest =>
    let c0 := b0 % 256
    if c0 < 128 then
      (utf8Decode rest).map fun cs => Char.ofNat c0 :: cs
    else if 194 ≤ c0 && c0 ≤ 223 then
      match rest with
      | b1 :: rest1 =>
        if utf8Cont b1 then
          (utf8Decode rest1).map fun cs =>
            Char.ofNat ((c0 - 192) * 64 + (b1 % 256 - 128)) :: cs
        else none
      | [] => none
    else if 224 ≤ c0 && c0 ≤ 239 then
      match rest with
      | b1 :: b2 :: rest2 =>
        let c1 := b1 % 256
        let lo := if c0 = 224 then 160 else 128
        let hi := if c0 = 237 then 159 else 191
        if lo ≤ c1 && c1 ≤ hi && utf8Cont b2 then
          (utf8Decode rest2).map fun cs =>
            Char.ofNat ((c0 - 224) * 4096 + (c1 - 128) * 64 + (b2 % 256 - 128)) :: cs
        else none
      | _ => none
    else if 240 ≤ c0 && c0 ≤ 244 then
      match rest with
      | b1 :: b2 :: b3 :: rest3 =>
        let c1 := b1 % 256
        let lo := if c0 = 240 then 144 else 128
        let hi := if c0 = 244 then 143 else 191
        if lo ≤ c1 && c1 ≤ hi && utf8Cont b2 && utf8Cont b3 then
          (utf8Decode rest3).map fun cs =>
            Char.ofNat ((c0 - 240) * 262144 + (c1 - 128) * 4096 +
              (b2 % 256 - 128) * 64 + (b3 % 256 - 128)) :: cs
        else none
      | _ => none
    else none

/-- The `Header` namedtuple. -/
structure Header where
  mainframe_name : String
  version : Int
  record_count : Int
deriving DecidableEq, Repr

/-- `header_reader`: reads `header_struct.size` bytes and unpacks them with
format `'>4cbl'`, whose standard size is 4 + 1 + 4 = 9 bytes (`4c` four
chars, `b` signed 8-bit, `l` big-endian signed 32-bit).  The four char
fields are concatenated and decoded as UTF-8 to form `mainframe_name`.
`none` models the uncaught `struct.error` of a short read and the
`UnicodeDecodeError` of an invalid name; on success the bytes left in the
stream are returned alongside the header. -/
def header_reader (data : List Nat) : Option (Header × List Nat) :=
  let hdr := data.take 9
  if hdr.length = 9 then
    (utf8Decode (hdr.take 4)).map fun cs =>
      ({ mainframe_name := String.mk cs
         version := toSigned 8 (beNat ((hdr.drop 4).take 1))
         record_count := toSigned 32 (beNat (hdr.drop 5)) }, data.drop 9)
  else none

/-- The four running totals of `get_data`, in the order the source returns
them: `(debits, credits, starts, stops)`. -/
structure Totals where
  debits : ℚ
  credits : ℚ
  starts : Nat
  stops : Nat
deriving DecidableEq, Repr

/-- Initial totals of `get_data`: `debits = 0.0`, `credits = 0.0`,
`starts = 0`, `stops = 0`. -/
def initTotals : Totals := ⟨0, 0, 0, 0⟩

/-- The `for row in row_parser(...)` loop body of `get_data`, one call per
value produced by the row generator, threading the two optional observer
callbacks (`file_writer` first, then `user_account_tracker`, as in the
source) as state transformers.

  * A `none` element models a `None` row and is skipped by the
    `if row is None: continue` branch.
  * Classification: `CREDIT` adds `row.amount` to `credits`, `DEBIT` adds it
    to `debits`, `START_AUTOPAY`/`STOP_AUTOPAY` bump the counters, anything
    else falls through.  Accessing `row.amount` on an `Instruction` raises
    (first component `none`); the observers have already run on that row, so
    their states are still returned.
  * `streamErr` is the row generator's error flag: when the generator ends by
    raising, the exception surfaces after every yielded row was processed,
    so the totals are lost (`none`) but observer state survives. -/
def get_data_loop {τ ω : Type} (tracker : Option (Row → τ → τ))
    (writer : Option (Row → ω → ω)) (streamErr : Bool) :
    List (Option Row) → Totals → τ → ω → Option Totals × τ × ω
  | [], acc, ts, ws => (if streamErr then none else some acc, ts, ws)
  | none :: rest, acc, ts, ws => get_data_loop tracker writer streamErr rest acc ts ws
  | some row :: rest, acc, ts, ws =>
    let ws1 := match writer with
      | some w => w row ws
      | none => ws
    let ts1 := match tracker with
      | some t => t row ts
      | none => ts
    if row.event = CREDIT then
      match row.amount with
      | some a => get_data_loop tracker writer streamErr rest
          { acc with credits := acc.credits + a } ts1 ws1
      | none => (none, ts1, ws1)
    else if row.event = DEBIT then
      match row.amount with
      | some a => get_data_loop tracker writer streamErr rest
          { acc with debits := acc.debits + a } ts1 ws1
      | none => (none, ts1, ws1)
    else if row.event = START_AUTOPAY then
      get_data_loop tracker writer streamErr rest
        { acc with starts := acc.starts + 1 } ts1 ws1
    else if row.event = STOP_AUTOPAY then
      get_data_loop tracker writer streamErr rest
        { acc with stops := acc.stops + 1 } ts1 ws1
    else
      get_data_loop tracker writer streamErr rest acc ts1 ws1

/-- `get_data`: iterates `row_parser` over the byte stream, feeding each
yielded row to the optional observers and classifying it into the running
totals; returns `(debits, credits, starts, stops)` (or `none` if an
exception escaped the loop) together with the final observer states. -/
def get_data {τ ω : Type} (data : List Nat) (tracker : Option (Row → τ → τ))
    (t0 : τ) (writer : Option (Row → ω → ω)) (w0 : ω) : Option Totals × τ × ω :=
  get_data_loop tracker writer (rowParser data).2
    ((rowParser data).1.map some) initTotals t0 w0

/-- The `UserBalance` observer state: a target user id and a running
balance. -/
structure UserBalance where
  user_id : Int
  balance : ℚ
deriving DecidableEq, Repr

/-- `UserBalance.__init__`: `balance` starts at 0. -/
def UserBalance.init (uid : Int) : UserBalance := ⟨uid, 0⟩

/-- `UserBalance.__call__`: rows for a different user are ignored; `CREDIT`
adds `row.amount` to the balance, `DEBIT` subtracts it, anything else is
ignored.  Accessing `row.amount` on an `Instruction` row raises
(`none`). -/
def UserBalance.call (s : UserBalance) (row : Row) : Option UserBalance :=
  if row.user_id ≠ s.user_id then some s
  else if row.event = CREDIT then
    row.amount.map fun a => ⟨s.user_id, s.balance + a⟩
  else if row.event = DEBIT then
    row.amount.map fun a => ⟨s.user_id, s.balance - a⟩
  else some s

/-- Shape test on a yielded row. -/
def Row.isTx : Row → Bool
  | .tx _ => true
  | .instr _ => false

/-- A row shape the classification code can process without raising: any row
whose event is `CREDIT` or `DEBIT` carries an `amount` field.  Every row the
source generator yields satisfies this (`rowParser_wf`). -/
def wfRow (r : Row) : Bool :=
  !(r.event == CREDIT || r.event == DEBIT) || r.isTx

/-- Frame size selected by a discriminant byte: 21 bytes for the transaction
shape (discriminant 0 or 1), 13 bytes for the instruction shape. -/
def frameSize (b : Nat) : Nat :=
  if b % 256 = 0 ∨ b % 256 = 1 then 21 else 13

/-- A complete frame: a nonempty byte list whose length is exactly the frame
size its first byte selects. -/
def isFrame (f : List Nat) : Bool :=
  match f with
  | [] => false
  | b :: _ => f.length == frameSize b

/-- Spec-side: the amount a row contributes where one is defined (0 for
instruction rows, which the specification never sums). -/
def Row.amountD (r : Row) : ℚ :=
  (Row.amount r).getD 0

/-- Spec-side: sum of the amount fields of the rows with event `DEBIT`. -/
def specDebits (rows : List Row) : ℚ :=
  ((rows.filter fun r => r.event == DEBIT).map Row.amountD).sum

/-- Spec-side: sum of the amount fields of the rows with event `CREDIT`. -/
def specCredits (rows : List Row) : ℚ :=
  ((rows.filter fun r => r.event == CREDIT).map Row.amountD).sum

/-- Spec-side: number of rows with event `START_AUTOPAY`. -/
def specStarts (rows : List Row) : Nat :=
  (rows.filter fun r => r.event == START_AUTOPAY).length

/-- Spec-side: number of rows with event `STOP_AUTOPAY`. -/
def specStops (rows : List Row) : Nat :=
  (rows.filter fun r => r.event == STOP_AUTOPAY).length

/-- Spec-side reading of the `get_data` loop without the
`if row is None: continue` guard, used to show that guard is dead code when
the rows come from the generator. -/
def get_data_noskip {τ ω : Type} (tracker : Option (Row → τ → τ))
    (writer : Option (Row → ω → ω)) (streamErr : Bool) :
    List Row → Totals → τ → ω → Option Totals × τ × ω
  | [], acc, ts, ws => (if streamErr then none else some acc, ts, ws)
  | row :: rest, acc, ts, ws =>
    let ws1 := match writer with
      | some w => w row ws
      | none => ws
    let ts1 := match tracker with
      | some t => t row ts
      | none => ts
    if row.event = CREDIT then
      match row.amount with
      | some a => get_data_noskip tracker writer streamErr rest
          { acc with credits := acc.credits + a } ts1 ws1
      | none => (none, ts1, ws1)
    else if row.event = DEBIT then
      match row.amount with
      | some a => get_data_noskip tracker writer streamErr rest
          { acc with debits := acc.debits + a } ts1 ws1
      | none => (none, ts1, ws1)
    else if row.event = START_AUTOPAY then
      get_data_noskip tracker writer streamErr rest
        { acc with starts := acc.starts + 1 } ts1 ws1
    else if row.event = STOP_AUTOPAY then
      get_data_noskip tracker writer streamErr rest
        { acc with stops := acc.stops + 1 } ts1 ws1
    else
      get_data_noskip tracker writer streamErr rest acc ts1 ws1

theorem mem_TRANSACTIONS_iff (b : Nat) :
    toSigned 8 (b % 256) ∈ TRANSACTIONS ↔ b % 256 = 0 ∨ b % 256 = 1 := by
  have hb : b % 256 < 256 := Nat.mod_lt _ (by norm_num)
  simp only [TRANSACTIONS, CREDIT, DEBIT, List.mem_cons, List.not_mem_nil, or_false,
    toSigned]
  split <;> omega

theorem transaction_reader_length {d : List Nat} {t : Transaction}
    (h : transaction_reader d = some t) : d.length = 21 := by
  by_contra hne
  simp [transaction_reader, hne] at h

theorem instruction_reader_length {d : List Nat} {i : Instruction}
    (h : instruction_reader d = some i) : d.length = 13 := by
  by_contra hne
  simp [instruction_reader, hne] at h

theorem rowParserF_irrel : ∀ (fuel fuel' : Nat) (data : List Nat),
    data.length ≤ fuel → data.length ≤ fuel' →
    rowParserF fuel data = rowParserF fuel' data := by
  intro fuel
  induction fuel with
  | zero =>
    intro fuel' data h _
    have hd : data = [] := List.length_eq_zero.mp (Nat.le_zero.mp h)
    subst hd
    cases fuel' <;> rfl
  | succ fuel ih =>
    intro fuel' data h h'
    cases data with
    | nil => cases fuel' <;> rfl
    | cons b rest =>
      cases fuel' with
      | zero => simp at h'
      | succ fuel2 =>
        simp only [rowParserF]
        split
        · cases htr : transaction_reader ((b :: rest).take 21) with
          | none => rfl
          | some t =>
            have h21 : 21 ≤ (b :: rest).length := by
              have := transaction_reader_length htr
              simp only [List.length_take] at this
              omega
            have hdl : ((b :: rest).drop 21).length = (b :: rest).length - 21 := by
              simp
            rw [ih fuel2 ((b :: rest).drop 21) (by omega) (by omega)]
        · cases hin : instruction_reader ((b :: rest).take 13) with
          | none => rfl
          | some i =>
            have h13 : 13 ≤ (b :: rest).length := by
              have := instruction_reader_length hin
              simp only [List.length_take] at this
              omega
            have hdl : ((b :: rest).drop 13).length = (b :: rest).length - 13 := by
              simp
            rw [ih fuel2 ((b :: rest).drop 13) (by omega) (by omega)]

theorem rowParser_nil : rowParser [] = ([], false) := rfl

theorem rowParser_cons_tx {b : Nat} {rest : List Nat} {t : Transaction}
    (hb : toSigned 8 (b % 256) ∈ TRANSACTIONS)
    (htr : transaction_reader ((b :: rest).take 21) = some t) :
    rowParser (b :: rest) =
      (Row.tx t :: (rowParser ((b :: rest).drop 21)).1,
       (rowParser ((b :: rest).drop 21)).2) := by
  have h21 : 21 ≤ (b :: rest).length := by
    have := transaction_reader_length htr
    simp only [List.length_take] at this
    omega
  show rowParserF (b :: rest).length (b :: rest) = _
  rw [show (b :: rest).length = rest.length + 1 from rfl]
  simp only [rowParserF, if_pos hb, htr]
  rw [rowParserF_irrel rest.length ((b :: rest).drop 21).length ((b :: rest).drop 21)
    (by simp) (le_refl _)]
  rfl

theorem rowParser_cons_tx_short {b : Nat} {rest : List Nat}
    (hb : toSigned 8 (b % 256) ∈ TRANSACTIONS)
    (hshort : (b :: rest).length < 21) :
    rowParser (b :: rest) = ([], true) := by
  simp only [List.length_cons] at hshort
  have htr : transaction_reader ((b :: rest).take 21) = none := by
    simp only [transaction_reader, List.length_take, List.length_cons,
      ite_eq_right_iff]
    omega
  show rowParserF (b :: rest).length (b :: rest) = _
  rw [show (b :: rest).length = rest.length + 1 from rfl]
  simp only [rowParserF, if_pos hb, htr]

theorem rowParser_cons_instr {b : Nat} {rest : List Nat} {i : Instruction}
    (hb : toSigned 8 (b % 256) ∉ TRANSACTIONS)
    (hin : instruction_reader ((b :: rest).take 13) = some i) :
    rowParser (b :: rest) =
      (Row.instr i :: (rowParser ((b :: rest).drop 13)).1,
       (rowParser ((b :: rest).drop 13)).2) := by
  have h13 : 13 ≤ (b :: rest).length := by
    have := instruction_reader_length hin
    simp only [List.length_take] at this
    omega
  show rowParserF (b :: rest).length (b :: rest) = _
  rw [show (b :: rest).length = rest.length + 1 from rfl]
  simp only [rowParserF, if_neg hb, hin]
  rw [rowParserF_irrel rest.length ((b :: rest).drop 13).length ((b :: rest).drop 13)
    (by simp) (le_refl _)]
  rfl

theorem rowParser_cons_instr_short {b : Nat} {rest : List Nat}
    (hb : toSigned 8 (b % 256) ∉ TRANSACTIONS)
    (hshort : (b :: rest).length < 13) :
    rowParser (b :: rest) = ([], true) := by
  simp only [List.length_cons] at hshort
  have hin : instruction_reader ((b :: rest).take 13) = none := by
    simp only [instruction_reader, List.length_take, List.length_cons,
      ite_eq_right_iff]
    omega
  show rowParserF (b :: rest).length (b :: rest) = _
  rw [show (b :: rest).length = rest.length + 1 from rfl]
  simp only [rowParserF, if_neg hb, hin]

theorem instruction_reader_event {b : Nat} {l : List Nat} {i : Instruction}
    (h : instruction_reader (b :: l) = some i) :
    i.event = toSigned 8 (b % 256) := by
  simp only [instruction_reader] at h
  split at h
  · simp only [Option.some.injEq] at h
    subst h
    simp [beNat]
  · cases h

theorem transaction_reader_event {b : Nat} {l : List Nat} {t : Transaction}
    (h : transaction_reader (b :: l) = some t) :
    t.event = toSigned 8 (b % 256) := by
  simp only [transaction_reader] at h
  split at h
  · simp only [Option.some.injEq] at h
    subst h
    simp [beNat]
  · cases h

theorem rowParserF_wf : ∀ (fuel : Nat) (data : List Nat),
    ∀ r ∈ (rowParserF fuel data).1, wfRow r = true := by
  intro fuel
  induction fuel with
  | zero =>
    intro data r hr
    simp [rowParserF] at hr
  | succ fuel ih =>
    intro data r hr
    cases data with
    | nil => simp [rowParserF] at hr
    | cons b rest =>
      simp only [rowParserF] at hr
      by_cases hb : toSigned 8 (b % 256) ∈ TRANSACTIONS
      · rw [if_pos hb] at hr
        cases htr : transaction_reader ((b :: rest).take 21) with
        | none => rw [htr] at hr; simp at hr
        | some t =>
          rw [htr] at hr
          simp only [List.mem_cons] at hr
          rcases hr with rfl | hr
          · simp [wfRow, Row.isTx]
          · exact ih _ r hr
      · rw [if_neg hb] at hr
        cases hin : instruction_reader ((b :: rest).take 13) with
        | none => rw [hin] at hr; simp at hr
        | some i =>
          rw [hin] at hr
          simp only [List.mem_cons] at hr
          rcases hr with rfl | hr
          · rw [List.take_succ_cons] at hin
            have he := instruction_reader_event hin
            simp only [TRANSACTIONS, List.mem_cons, List.not_mem_nil, or_false,
              not_or] at hb
            simp [wfRow, Row.isTx, Row.event, he, hb.1, hb.2]
          · exact ih _ r hr

/-- Every row the source generator yields can be classified without raising:
rows whose event is `CREDIT` or `DEBIT` are always `Transaction`s. -/
theorem rowParser_wf (data : List Nat) :
    ∀ r ∈ (rowParser data).1, wfRow r = true :=
  rowParserF_wf data.length data

theorem get_data_loop_err {τ ω : Type} (tracker : Option (Row → τ → τ))
    (writer : Option (Row → ω → ω)) :
    ∀ (rows : List (Option Row)) (acc : Totals) (ts : τ) (ws : ω),
      (get_data_loop tracker writer true rows acc ts ws).1 = none := by
  intro rows
  induction rows with
  | nil =>
    intro acc ts ws
    simp [get_data_loop]
  | cons o rest ih =>
    intro acc ts ws
    cases o with
    | none => simpa only [get_data_loop] using ih acc ts ws
    | some r =>
      cases r with
      | tx t =>
        simp only [get_data_loop, Row.event, Row.amount]
        split_ifs <;> apply ih
      | instr i =>
        simp only [get_data_loop, Row.event, Row.amount]
        split_ifs <;> first
          | rfl
          | apply ih

theorem get_data_loop_spec {τ ω : Type} (tracker : Option (Row → τ → τ))
    (writer : Option (Row → ω → ω)) :
    ∀ (rows : List Row), (∀ r ∈ rows, wfRow r = true) →
      ∀ (acc : Totals) (ts : τ) (ws : ω),
      (get_data_loop tracker writer false (rows.map some) acc ts ws).1 =
        some ⟨acc.debits + specDebits rows, acc.credits + specCredits rows,
              acc.starts + specStarts rows, acc.stops + specStops rows⟩ := by
  intro rows
  induction rows with
  | nil =>
    intro _ acc ts ws
    simp [get_data_loop, specDebits, specCredits, specStarts, specStops]
  | cons r rs ih =>
    intro hwf acc ts ws
    have hwfr : wfRow r = true := hwf r (List.mem_cons_self r rs)
    have hwfs : ∀ x ∈ rs, wfRow x = true := fun x hx => hwf x (List.mem_cons_of_mem r hx)
    cases r with
    | tx t =>
      simp only [List.map_cons, get_data_loop, Row.event, Row.amount]
      by_cases h0 : t.event = CREDIT
      · rw [if_pos h0, ih hwfs]
        simp [specDebits, specCredits, specStarts, specStops, Row.event, h0,
          Row.amountD, Row.amount, CREDIT, DEBIT, START_AUTOPAY, STOP_AUTOPAY]
        ring
      · by_cases h1 : t.event = DEBIT
        · rw [if_neg h0, if_pos h1, ih hwfs]
          simp [specDebits, specCredits, specStarts, specStops, Row.event, h0, h1,
            Row.amountD, Row.amount, CREDIT, DEBIT, START_AUTOPAY, STOP_AUTOPAY]
          ring
        · by_cases h2 : t.event = START_AUTOPAY
          · rw [if_neg h0, if_neg h1, if_pos h2, ih hwfs]
            simp [specDebits, specCredits, specStarts, specStops, Row.event, h0, h1, h2,
              CREDIT, DEBIT, START_AUTOPAY, STOP_AUTOPAY]
            omega
          · by_cases h3 : t.event = STOP_AUTOPAY
            · rw [if_neg h0, if_neg h1, if_neg h2, if_pos h3, ih hwfs]
              simp [specDebits, specCredits, specStarts, specStops, Row.event, h0, h1, h2, h3,
                CREDIT, DEBIT, START_AUTOPAY, STOP_AUTOPAY]
              omega
            · rw [if_neg h0, if_neg h1, if_neg h2, if_neg h3, ih hwfs]
              simp only [CREDIT, DEBIT, START_AUTOPAY, STOP_AUTOPAY] at h0 h1 h2 h3
              simp [specDebits, specCredits, specStarts, specStops, Row.event, h0, h1, h2, h3,
                CREDIT, DEBIT, START_AUTOPAY, STOP_AUTOPAY, List.filter_cons, beq_iff_eq]
    | instr i =>
      have hne : ¬ (i.event = CREDIT) ∧ ¬ (i.event = DEBIT) := by
        simp only [wfRow, Row.event, Row.isTx, Bool.or_false, Bool.not_eq_true'] at hwfr
        constructor <;> intro h <;> simp [h, CREDIT, DEBIT] at hwfr
      simp only [List.map_cons, get_data_loop, Row.event, Row.amount]
      rw [if_neg hne.1, if_neg hne.2]
      by_cases h2 : i.event = START_AUTOPAY
      · rw [if_pos h2, ih hwfs]
        simp [specDebits, specCredits, specStarts, specStops, Row.event, hne.1, hne.2, h2,
          CREDIT, DEBIT, START_AUTOPAY, STOP_AUTOPAY]
        omega
      · by_cases h3 : i.event = STOP_AUTOPAY
        · rw [if_neg h2, if_pos h3, ih hwfs]
          simp [specDebits, specCredits, specStarts, specStops, Row.event, hne.1, hne.2, h2, h3,
            CREDIT, DEBIT, START_AUTOPAY, STOP_AUTOPAY]
          omega
        · rw [if_neg h2, if_neg h3, ih hwfs]
          have h0 := hne.1
          have h1 := hne.2
          simp only [CREDIT, DEBIT, START_AUTOPAY, STOP_AUTOPAY] at h0 h1 h2 h3
          simp [specDebits, specCredits, specStarts, specStops, Row.event, h0, h1, h2, h3,
            CREDIT, DEBIT, START_AUTOPAY, STOP_AUTOPAY, List.filter_cons, beq_iff_eq]

theorem transaction_reader_take (data : List Nat) (h : 21 ≤ data.length) :
    transaction_reader (data.take 21) =
      some { event := toSigned 8 (beNat (data.take 1))
             timestamp := toSigned 32 (beNat ((data.drop 1).take 4))
             user_id := toSigned 64 (beNat ((data.drop 5).take 8))
             amount := f64ofBits (beNat ((data.drop 13).take 8)) } := by
  have hl : (data.take 21).length = 21 := by
    simp [List.length_take]
    omega
  simp only [transaction_reader, hl, if_pos]
  have e1 : (data.take 21).take 1 = data.take 1 := by
    simp [List.take_take]
  have e2 : ((data.take 21).drop 1).take 4 = (data.drop 1).take 4 := by
    rw [List.drop_take]
    simp [List.take_take]
  have e3 : ((data.take 21).drop 5).take 8 = (data.drop 5).take 8 := by
    rw [List.drop_take]
    simp [List.take_take]
  have e4 : (data.take 21).drop 13 = (data.drop 13).take 8 := by
    rw [List.drop_take]
  rw [e1, e2, e3, e4]

theorem instruction_reader_take (data : List Nat) (h : 13 ≤ data.length) :
    instruction_reader (data.take 13) =
      some { event := toSigned 8 (beNat (data.take 1))
             timestamp := toSigned 32 (beNat ((data.drop 1).take 4))
             user_id := toSigned 64 (beNat ((data.drop 5).take 8)) } := by
  have hl : (data.take 13).length = 13 := by
    simp [List.length_take]
    omega
  simp only [instruction_reader, hl, if_pos]
  have e1 : (data.take 13).take 1 = data.take 1 := by
    simp [List.take_take]
  have e2 : ((data.take 13).drop 1).take 4 = (data.drop 1).take 4 := by
    rw [List.drop_take]
    simp [List.take_take]
  have e3 : (data.take 13).drop 5 = (data.drop 5).take 8 := by
    rw [List.drop_take]
  rw [e1, e2, e3]

theorem get_data_loop_eq_noskip {τ ω : Type} (tracker : Option (Row → τ → τ))
    (writer : Option (Row → ω → ω)) (streamErr : Bool) :
    ∀ (rows : List Row) (acc : Totals) (ts : τ) (ws : ω),
      get_data_loop tracker writer streamErr (rows.map some) acc ts ws =
        get_data_noskip tracker writer streamErr rows acc ts ws := by
  intro rows
  induction rows with
  | nil => intro acc ts ws; rfl
  | cons r rs ih =>
    intro acc ts ws
    simp only [List.map_cons, get_data_loop, get_data_noskip, ih]

theorem get_data_loop_observers (streamErr : Bool) :
    ∀ (rows : List Row), (∀ r ∈ rows, wfRow r = true) →
      ∀ (acc : Totals) (ts ws : List Row),
      (get_data_loop (some fun r l => l ++ [r]) (some fun r l => l ++ [r]) streamErr
        (rows.map some) acc ts ws).2 = (ts ++ rows, ws ++ rows) := by
  intro rows
  induction rows with
  | nil =>
    intro _ acc ts ws
    simp [get_data_loop]
  | cons r rs ih =>
    intro hwf acc ts ws
    have hwfr : wfRow r = true := hwf r (List.mem_cons_self r rs)
    have hwfs : ∀ x ∈ rs, wfRow x = true := fun x hx => hwf x (List.mem_cons_of_mem r hx)
    cases r with
    | tx t =>
      simp only [List.map_cons, get_data_loop, Row.event, Row.amount]
      split_ifs <;> simp [ih hwfs]
    | instr i =>
      have hne : ¬ (i.event = CREDIT) ∧ ¬ (i.event = DEBIT) := by
        simp only [wfRow, Row.event, Row.isTx, Bool.or_false, Bool.not_eq_true'] at hwfr
        constructor <;> intro h <;> simp [h, CREDIT, DEBIT] at hwfr
      simp only [List.map_cons, get_data_loop, Row.event, Row.amount]
      rw [if_neg hne.1, if_neg hne.2]
      split_ifs <;> simp [ih hwfs]

theorem isFrame_cons {b : Nat} {ftail : List Nat}
    (h : isFrame (b :: ftail) = true) : (b :: ftail).length = frameSize b := by
  simpa [isFrame, beq_iff_eq] using h

theorem rowParser_frames :
    ∀ (fs : List (List Nat)) (extra : List Nat),
      (∀ f ∈ fs, isFrame f = true) →
      extra.length < frameSize (extra.headD 0) →
      (rowParser (fs.flatten ++ extra)).1.length = fs.length ∧
      (rowParser (fs.flatten ++ extra)).2 = !extra.isEmpty := by
  intro fs
  induction fs with
  | nil =>
    intro extra _ hshort
    simp only [List.flatten_nil, List.nil_append, List.length_nil]
    cases extra with
    | nil => simp [rowParser_nil]
    | cons b rest =>
      simp only [List.headD_cons, frameSize] at hshort
      by_cases hb : b % 256 = 0 ∨ b % 256 = 1
      · rw [if_pos hb] at hshort
        rw [rowParser_cons_tx_short ((mem_TRANSACTIONS_iff b).mpr hb) hshort]
        simp
      · rw [if_neg hb] at hshort
        rw [rowParser_cons_instr_short (fun hm => hb ((mem_TRANSACTIONS_iff b).mp hm)) hshort]
        simp
  | cons f fs ih =>
    intro extra hfr hshort
    have hf : isFrame f = true := hfr f (List.mem_cons_self f fs)
    have hfs : ∀ g ∈ fs, isFrame g = true := fun g hg => hfr g (List.mem_cons_of_mem f hg)
    obtain ⟨b, ftail, rfl⟩ : ∃ b ftail, f = b :: ftail := by
      cases f with
      | nil => simp [isFrame] at hf
      | cons b ftail => exact ⟨b, ftail, rfl⟩
    have hlen : (b :: ftail).length = frameSize b := isFrame_cons hf
    have hflat : ((b :: ftail) :: fs).flatten ++ extra =
        b :: (ftail ++ (fs.flatten ++ extra)) := by
      simp [List.flatten_cons, List.append_assoc]
    rw [hflat]
    by_cases hb : b % 256 = 0 ∨ b % 256 = 1
    · have h21 : (b :: ftail).length = 21 := by
        rw [hlen, frameSize, if_pos hb]
      have htake : (b :: (ftail ++ (fs.flatten ++ extra))).take 21 = b :: ftail := by
        have : (b :: ftail) ++ (fs.flatten ++ extra) =
            b :: (ftail ++ (fs.flatten ++ extra)) := by simp
        rw [← this, ← h21, List.take_left]
      have hdrop : (b :: (ftail ++ (fs.flatten ++ extra))).drop 21 = fs.flatten ++ extra := by
        have : (b :: ftail) ++ (fs.flatten ++ extra) =
            b :: (ftail ++ (fs.flatten ++ extra)) := by simp
        rw [← this, ← h21, List.drop_left]
      have htr : transaction_reader ((b :: (ftail ++ (fs.flatten ++ extra))).take 21) =
          some { event := toSigned 8 (beNat ((b :: ftail).take 1))
                 timestamp := toSigned 32 (beNat (((b :: ftail).drop 1).take 4))
                 user_id := toSigned 64 (beNat (((b :: ftail).drop 5).take 8))
                 amount := f64ofBits (beNat ((b :: ftail).drop 13)) } := by
        rw [htake, transaction_reader]
        simp only [h21, if_pos]
      rw [rowParser_cons_tx ((mem_TRANSACTIONS_iff b).mpr hb) htr, hdrop]
      have := ih extra hfs hshort
      simp only [List.length_cons, this.1, this.2]
      exact ⟨trivial, trivial⟩
    · have h13 : (b :: ftail).length = 13 := by
        rw [hlen, frameSize, if_neg hb]
      have htake : (b :: (ftail ++ (fs.flatten ++ extra))).take 13 = b :: ftail := by
        have : (b :: ftail) ++ (fs.flatten ++ extra) =
            b :: (ftail ++ (fs.flatten ++ extra)) := by simp
        rw [← this, ← h13, List.take_left]
      have hdrop : (b :: (ftail ++ (fs.flatten ++ extra))).drop 13 = fs.flatten ++ extra := by
        have : (b :: ftail) ++ (fs.flatten ++ extra) =
            b :: (ftail ++ (fs.flatten ++ extra)) := by simp
        rw [← this, ← h13, List.drop_left]
      have hin : instruction_reader ((b :: (ftail ++ (fs.flatten ++ extra))).take 13) =
          some { event := toSigned 8 (beNat ((b :: ftail).take 1))
                 timestamp := toSigned 32 (beNat (((b :: ftail).drop 1).take 4))
                 user_id := toSigned 64 (beNat ((b :: ftail).drop 5)) } := by
        rw [htake, instruction_reader]
        simp only [h13, if_pos]
      rw [rowParser_cons_instr (fun hm => hb ((mem_TRANSACTIONS_iff b).mp hm)) hin, hdrop]
      have := ih extra hfs hshort
      simp only [List.length_cons, this.1, this.2]
      exact ⟨trivial, trivial⟩

/-- Claim C8: when the byte source is positioned at a frame boundary with zero
bytes remaining, the 1-byte discriminant peek finds no data and `row_parser`
terminates normally — no further record is yielded and no error is raised
(error flag `false`). -/
theorem claim_C8 : rowParser [] = ([], false) := rfl

/-- Claim C1, as amended.  For a stream of exactly `k` complete frames
followed by fewer extra bytes than the frame size selected by the first
trailing byte, `row_parser` yields exactly `k` records; it then terminates
normally when no extra bytes remain (the discriminant peek fails and is
caught), but when 1 or more trailing bytes remain it raises an uncaught
`struct.error` at the frame-read step (error flag `true`): the forgiving
end-of-stream policy holds only at the peek step, not at the read step. -/
theorem claim_C1 (fs : List (List Nat)) (extra : List Nat)
    (hframes : ∀ f ∈ fs, isFrame f = true)
    (hshort : extra.length < frameSize (extra.headD 0)) :
    (rowParser (fs.flatten ++ extra)).1.length = fs.length ∧
    (rowParser (fs.flatten ++ extra)).2 = !extra.isEmpty :=
  rowParser_frames fs extra hframes hshort

theorem claim_C1_witness :
    (rowParser (([[2, 0, 0, 0, 0, 0, 0, 0, 0, 0, 0, 0, 0]] : List (List Nat)).flatten
      ++ [0])).1.length = ([[2, 0, 0, 0, 0, 0, 0, 0, 0, 0, 0, 0, 0]] : List (List Nat)).length ∧
    (rowParser (([[2, 0, 0, 0, 0, 0, 0, 0, 0, 0, 0, 0, 0]] : List (List Nat)).flatten
      ++ [0])).2 = !([0] : List Nat).isEmpty :=
  claim_C1 [[2, 0, 0, 0, 0, 0, 0, 0, 0, 0, 0, 0, 0]] [0] (by decide) (by decide)

/-- Claim C1 fails as stated: on the stream `[0]` — zero complete frames
followed by one extra trailing byte — the claim predicts normal termination
with no error, but the parser peeks discriminant 0, chooses the 21-byte
transaction shape, reads only 1 byte, and the unpack raises an uncaught
`struct.error` (error flag `true`). -/
theorem claim_C1_counterexample : rowParser [0] = ([], true) := rfl

/-- Claim C2, as amended.  A 21-byte frame with discriminant 0 or 1 is fully
consumed and yields a `Transaction` whose event is the discriminant, whose
timestamp is bytes 2-5 as a big-endian SIGNED 32-bit integer, whose user id
is bytes 6-13 as a big-endian SIGNED 64-bit integer (the source formats `i`
and `q` are signed, not unsigned as claimed), and whose amount is bytes
14-21 interpreted as a big-endian IEEE-754 double. -/
theorem claim_C2 (b : Nat) (rest : List Nat)
    (hb : b % 256 = 0 ∨ b % 256 = 1) (hlen : 21 ≤ (b :: rest).length) :
    rowParser (b :: rest) =
      (Row.tx { event := ((b % 256 : Nat) : Int)
                timestamp := toSigned 32 (beNat (((b :: rest).drop 1).take 4))
                user_id := toSigned 64 (beNat (((b :: rest).drop 5).take 8))
                amount := f64ofBits (beNat (((b :: rest).drop 13).take 8)) }
        :: (rowParser ((b :: rest).drop 21)).1,
       (rowParser ((b :: rest).drop 21)).2) := by
  have hmem : toSigned 8 (b % 256) ∈ TRANSACTIONS := (mem_TRANSACTIONS_iff b).mpr hb
  have htr := transaction_reader_take (b :: rest) hlen
  have hev : toSigned 8 (beNat ((b :: rest).take 1)) = ((b % 256 : Nat) : Int) := by
    have h1 : (b :: rest).take 1 = [b] := rfl
    have h2 : beNat [b] = b % 256 := by simp [beNat]
    rw [h1, h2, toSigned]
    have hlt : b % 256 < 2 ^ (8 - 1) := by
      rcases hb with h | h <;> simp [h]
    rw [if_pos hlt]
  rw [hev] at htr
  exact rowParser_cons_tx hmem htr

theorem claim_C2_witness :
    rowParser [0, 83, 9, 39, 209, 57, 103, 71, 192, 69, 217, 145, 33,
               64, 130, 226, 49, 214, 215, 46, 141] =
      (Row.tx { event := 0, timestamp := 1393108945,
                user_id := 4136353673894269217,
                amount := (5315253266493069 : ℚ) / 8796093022208 } :: [], false) := by
  rw [claim_C2 0 [83, 9, 39, 209, 57, 103, 71, 192, 69, 217, 145, 33,
    64, 130, 226, 49, 214, 215, 46, 141] (by decide) (by decide)]
  norm_num [f64ofBits, beNat, toSigned, rowParser, rowParserF]

/-- Claim C2 fails as stated: a 21-byte CREDIT frame whose timestamp bytes
are FF FF FF FF decodes to timestamp -1 (format `i` is a signed 32-bit
integer), not to the unsigned value 4294967295 the claim asserts. -/
theorem claim_C2_counterexample :
    rowParser [0, 255, 255, 255, 255, 0, 0, 0, 0, 0, 0, 0, 0,
               0, 0, 0, 0, 0, 0, 0, 0] =
      ([Row.tx { event := 0, timestamp := -1, user_id := 0, amount := 0 }], false) ∧
    (-1 : Int) ≠ 4294967295 := by
  constructor
  · have htr := transaction_reader_take
      [0, 255, 255, 255, 255, 0, 0, 0, 0, 0, 0, 0, 0,
        0, 0, 0, 0, 0, 0, 0, 0] (by decide)
    rw [rowParser_cons_tx (by decide) htr]
    norm_num [f64ofBits, beNat, toSigned, rowParser, rowParserF]
  · decide

/-- Claim C3: every complete frame whose discriminant byte is not 0 or 1 —
the valid instruction discriminants 2 and 3 but equally every other byte
value — makes `row_parser` consume exactly 13 bytes and yield an
`Instruction` with event, timestamp and user id decoded from those bytes;
no discriminant value is ever rejected as an error. -/
theorem claim_C3 (b : Nat) (rest : List Nat)
    (hb : ¬ (b % 256 = 0 ∨ b % 256 = 1)) (hlen : 13 ≤ (b :: rest).length) :
    rowParser (b :: rest) =
      (Row.instr { event := toSigned 8 (b % 256)
                   timestamp := toSigned 32 (beNat (((b :: rest).drop 1).take 4))
                   user_id := toSigned 64 (beNat (((b :: rest).drop 5).take 8)) }
        :: (rowParser ((b :: rest).drop 13)).1,
       (rowParser ((b :: rest).drop 13)).2) := by
  have hmem : toSigned 8 (b % 256) ∉ TRANSACTIONS :=
    fun hm => hb ((mem_TRANSACTIONS_iff b).mp hm)
  have hin := instruction_reader_take (b :: rest) hlen
  have hev : beNat ((b :: rest).take 1) = b % 256 := by
    have h1 : (b :: rest).take 1 = [b] := rfl
    rw [h1]
    simp [beNat]
  rw [hev] at hin
  exact rowParser_cons_instr hmem hin

theorem claim_C3_witness :
    (rowParser [2, 83, 9, 37, 105, 57, 103, 71, 192, 69, 217, 145, 33] =
      ([Row.instr { event := 2, timestamp := 1393108329,
                    user_id := 4136353673894269217 }], false)) ∧
    (rowParser [255, 0, 0, 0, 1, 0, 0, 0, 0, 0, 0, 0, 2] =
      ([Row.instr { event := -1, timestamp := 1, user_id := 2 }], false)) := by
  constructor
  · rw [claim_C3 2 [83, 9, 37, 105, 57, 103, 71, 192, 69, 217, 145, 33]
      (by decide) (by decide)]
    decide
  · rw [claim_C3 255 [0, 0, 0, 1, 0, 0, 0, 0, 0, 0, 0, 2] (by decide) (by decide)]
    decide

/-- Claim C4: for any byte stream and any observer configuration, `get_data`
returns (when the record stream terminates without raising) exactly the
4-tuple (debits, credits, starts, stops) where credits/debits are the sums
of the amounts of the yielded CREDIT/DEBIT records, starts/stops count the
START_AUTOPAY/STOP_AUTOPAY records, and records with any other event value
contribute to none of the totals; in particular one START_AUTOPAY plus one
CREDIT of amount 604.274335557087 yields debits = 0, credits = that amount,
starts = 1, stops = 0. -/
theorem claim_C4 {τ ω : Type} (data : List Nat) (tracker : Option (Row → τ → τ))
    (t0 : τ) (writer : Option (Row → ω → ω)) (w0 : ω) :
    ((get_data data tracker t0 writer w0).1 =
      if (rowParser data).2 then none
      else some { debits := specDebits (rowParser data).1
                  credits := specCredits (rowParser data).1
                  starts := specStarts (rowParser data).1
                  stops := specStops (rowParser data).1 }) ∧
    (get_data_loop (none : Option (Row → Unit → Unit)) (none : Option (Row → Unit → Unit))
        false
        ([Row.instr { event := 2, timestamp := 1393108329, user_id := 4136353673894269217 },
          Row.tx { event := 0, timestamp := 1393108945, user_id := 4136353673894269217,
                   amount := (5315253266493069 : ℚ) / 8796093022208 }].map some)
        initTotals () ()).1 =
      some { debits := 0, credits := (5315253266493069 : ℚ) / 8796093022208,
             starts := 1, stops := 0 } := by
  constructor
  · simp only [get_data]
    cases herr : (rowParser data).2 with
    | false =>
      rw [get_data_loop_spec tracker writer (rowParser data).1 (rowParser_wf data)
        initTotals t0 w0]
      simp [initTotals]
    | true =>
      rw [get_data_loop_err tracker writer ((rowParser data).1.map some) initTotals t0 w0]
      simp
  · rw [get_data_loop_spec (none : Option (Row → Unit → Unit))
      (none : Option (Row → Unit → Unit)) _ (by decide) initTotals () ()]
    simp only [initTotals]
    norm_num [specDebits, specCredits, specStarts, specStops, Row.event, Row.amountD,
      Row.amount, CREDIT, DEBIT, START_AUTOPAY, STOP_AUTOPAY, List.filter_cons]

/-- Claim C5: a `UserBalance` tracker for user `U` ignores every row whose
user id differs from `U`; a CREDIT transaction for `U` adds its amount to
the balance, a DEBIT transaction subtracts it, and any other row kind for
`U` (an instruction, whose event is neither CREDIT nor DEBIT) leaves the
balance unchanged. -/
theorem claim_C5 (U : Int) (bal : ℚ) :
    (∀ row : Row, row.user_id ≠ U → UserBalance.call ⟨U, bal⟩ row = some ⟨U, bal⟩) ∧
    (∀ t : Transaction, t.user_id = U → t.event = CREDIT →
      UserBalance.call ⟨U, bal⟩ (Row.tx t) = some ⟨U, bal + t.amount⟩) ∧
    (∀ t : Transaction, t.user_id = U → t.event = DEBIT →
      UserBalance.call ⟨U, bal⟩ (Row.tx t) = some ⟨U, bal - t.amount⟩) ∧
    (∀ i : Instruction, i.user_id = U → ¬ (i.event = CREDIT) → ¬ (i.event = DEBIT) →
      UserBalance.call ⟨U, bal⟩ (Row.instr i) = some ⟨U, bal⟩) := by
  refine ⟨?_, ?_, ?_, ?_⟩
  · intro row hne
    simp [UserBalance.call, hne]
  · intro t huid hev
    simp [UserBalance.call, Row.user_id, Row.event, Row.amount, huid, hev]
  · intro t huid hev
    have hne : ¬ (t.event = CREDIT) := by
      rw [hev]
      decide
    simp [UserBalance.call, Row.user_id, Row.event, Row.amount, huid, hev, hne,
      CREDIT, DEBIT]
  · intro i huid h0 h1
    simp [UserBalance.call, Row.user_id, Row.event, Row.amount, huid, h0, h1]

theorem claim_C5_witness :
    (UserBalance.call (UserBalance.init 4136353673894269217)
        (Row.tx { event := 0, timestamp := 1393108945, user_id := 4136353673894269217,
                  amount := (5315253266493069 : ℚ) / 8796093022208 }) =
      some ⟨4136353673894269217, (5315253266493069 : ℚ) / 8796093022208⟩) ∧
    (UserBalance.call (UserBalance.init 7)
        (Row.tx { event := 0, timestamp := 1, user_id := 9, amount := 3 }) =
      some ⟨7, 0⟩) := by
  constructor
  · have h := (claim_C5 4136353673894269217 0).2.1
      { event := 0, timestamp := 1393108945, user_id := 4136353673894269217,
        amount := (5315253266493069 : ℚ) / 8796093022208 } rfl rfl
    simpa [UserBalance.init] using h
  · exact (claim_C5 7 0).1
      (Row.tx { event := 0, timestamp := 1, user_id := 9, amount := 3 }) (by decide)

/-- Claim C9: `get_data` hands every yielded record to each registered
observer exactly once, in stream order (with recording observers, both
final observer states are exactly the yielded row list), and each observer
sees a record before it is classified into the running totals (when
classifying a record raises, the loop result still shows the record already
appended to both observer states). -/
theorem claim_C9 (data : List Nat) :
    ((get_data data (some fun r l => l ++ [r]) ([] : List Row)
        (some fun r l => l ++ [r]) ([] : List Row)).2 =
      ((rowParser data).1, (rowParser data).1)) ∧
    (∀ (row : Row) (rest : List (Option Row)) (acc : Totals) (ts ws : List Row),
      (row.event = CREDIT ∨ row.event = DEBIT) → row.amount = none →
      get_data_loop (some fun r l => l ++ [r]) (some fun r l => l ++ [r]) false
        (some row :: rest) acc ts ws = (none, ts ++ [row], ws ++ [row])) := by
  constructor
  · simp only [get_data]
    rw [get_data_loop_observers (rowParser data).2 (rowParser data).1 (rowParser_wf data)
      initTotals ([] : List Row) ([] : List Row)]
    simp
  · intro row rest acc ts ws hev hnone
    rcases hev with h | h
    · simp [get_data_loop, h, hnone]
    · simp [get_data_loop, h, hnone, CREDIT, DEBIT]

theorem claim_C9_witness :
    ((get_data [2, 0, 0, 0, 0, 0, 0, 0, 0, 0, 0, 0, 0]
        (some fun r l => l ++ [r]) ([] : List Row)
        (some fun r l => l ++ [r]) ([] : List Row)).2 =
      ([Row.instr { event := 2, timestamp := 0, user_id := 0 }],
       [Row.instr { event := 2, timestamp := 0, user_id := 0 }])) ∧
    (get_data_loop (some fun r l => l ++ [r]) (some fun r l => l ++ [r]) false
        [some (Row.instr { event := 0, timestamp := 5, user_id := 7 })]
        initTotals [] [] =
      (none, [Row.instr { event := 0, timestamp := 5, user_id := 7 }],
       [Row.instr { event := 0, timestamp := 5, user_id := 7 }])) := by
  constructor
  · have h := (claim_C9 [2, 0, 0, 0, 0, 0, 0, 0, 0, 0, 0, 0, 0]).1
    rw [h]
    decide
  · exact (claim_C9 []).2 (Row.instr { event := 0, timestamp := 5, user_id := 7 })
      [] initTotals [] [] (Or.inl rfl) rfl

/-- Claim C10: the row generator only ever yields `Transaction` or
`Instruction` values — in the embedding, `some`-wrapped `Row`s, never
`None` — so the `if row is None: continue` guard in `get_data` is dead
code: running `get_data` coincides with the same loop with the guard
removed. -/
theorem claim_C10 {τ ω : Type} (data : List Nat) (tracker : Option (Row → τ → τ))
    (t0 : τ) (writer : Option (Row → ω → ω)) (w0 : ω) :
    (none ∉ ((rowParser data).1.map some)) ∧
    get_data data tracker t0 writer w0 =
      get_data_noskip tracker writer (rowParser data).2 (rowParser data).1 initTotals t0 w0 := by
  constructor
  · simp
  · simp only [get_data]
    exact get_data_loop_eq_noskip tracker writer (rowParser data).2 (rowParser data).1
      initTotals t0 w0

/-- Claim C7, as amended.  `header_reader` consumes exactly NINE bytes (the
standard size of struct format `'>4cbl'` is 4 + 1 + 4 = 9, not the 13 bytes
the claim states): the first 4 bytes are UTF-8 decoded into
`mainframe_name`, byte 5 is the signed 8-bit version, and bytes 6-9 — the
last four of the nine — are the big-endian signed 32-bit `record_count`;
the 9 bytes encoding name "TEST", version 1, record count 2 decode to
`Header("TEST", 1, 2)`. -/
theorem claim_C7 (data : List Nat) (cs : List Char)
    (hlen : 9 ≤ data.length) (hname : utf8Decode (data.take 4) = some cs) :
    header_reader data =
      some ({ mainframe_name := String.mk cs
              version := toSigned 8 (beNat ((data.drop 4).take 1))
              record_count := toSigned 32 (beNat ((data.drop 5).take 4)) },
            data.drop 9) := by
  have hl : (data.take 9).length = 9 := by
    simp [List.length_take]
    omega
  have e1 : (data.take 9).take 4 = data.take 4 := by
    simp [List.take_take]
  have e2 : ((data.take 9).drop 4).take 1 = (data.drop 4).take 1 := by
    rw [List.drop_take]
    simp [List.take_take]
  have e3 : (data.take 9).drop 5 = (data.drop 5).take 4 := by
    rw [List.drop_take]
  simp only [header_reader, hl, if_pos, e1, e2, e3, hname, Option.map_some']

theorem claim_C7_witness :
    header_reader [84, 69, 83, 84, 1, 0, 0, 0, 2] =
      some ({ mainframe_name := "TEST", version := 1, record_count := 2 }, []) := by
  rw [claim_C7 [84, 69, 83, 84, 1, 0, 0, 0, 2] ['T', 'E', 'S', 'T']
    (by decide) (by decide)]
  decide

/-- Claim C7 fails as stated: `header_struct` has standard size 9, not 13.
On a 13-byte input the reader consumes only 9 bytes — four bytes are left
over — and the record count comes from bytes 6-9 (here 2), not from the
last four of the thirteen (here 151587081). -/
theorem claim_C7_counterexample :
    header_reader [84, 69, 83, 84, 1, 0, 0, 0, 2, 9, 9, 9, 9] =
      some ({ mainframe_name := "TEST", version := 1, record_count := 2 }, [9, 9, 9, 9]) ∧
    ([9, 9, 9, 9] : List Nat) ≠ [] ∧
    (2 : Int) ≠ toSigned 32 (beNat [9, 9, 9, 9]) := by
  refine ⟨by decide, by decide, by decide⟩

/-- Claim C6, as amended.  The version field of every successfully decoded
header is byte 5 of the input reinterpreted as a SIGNED 8-bit integer
(struct format `b`): byte values 0-127 decode to themselves, but 128-255
decode to the negative value (byte - 256), not to the non-negative value
the claim asserts. -/
theorem claim_C6 (data : List Nat) (h : Header) (rest : List Nat)
    (hsome : header_reader data = some (h, rest)) :
    h.version = toSigned 8 (beNat ((data.drop 4).take 1)) := by
  simp only [header_reader] at hsome
  by_cases hl : (data.take 9).length = 9
  · rw [if_pos hl, Option.map_eq_some'] at hsome
    obtain ⟨cs, _, heq⟩ := hsome
    have e2 : ((data.take 9).drop 4).take 1 = (data.drop 4).take 1 := by
      rw [List.drop_take]
      simp [List.take_take]
    have hv := congrArg (fun p => p.1.version) heq
    simp only at hv
    rw [← hv, e2]
  · rw [if_neg hl] at hsome
    cases hsome

theorem claim_C6_witness :
    ((⟨"TEST", 1, 2⟩ : Header)).version =
      toSigned 8 (beNat ((([84, 69, 83, 84, 1, 0, 0, 0, 2] : List Nat).drop 4).take 1)) :=
  claim_C6 [84, 69, 83, 84, 1, 0, 0, 0, 2] ⟨"TEST", 1, 2⟩ [] (by decide)

/-- Claim C6 fails as stated: a header whose version byte is 128 decodes to
version -128 (struct format `b` is signed), not to the non-negative value
128 the claim asserts for byte values 128-255. -/
theorem claim_C6_counterexample :
    header_reader [84, 69, 83, 84, 128, 0, 0, 0, 2, 0, 0, 0, 0] =
      some ({ mainframe_name := "TEST", version := -128, record_count := 2 }, [0, 0, 0, 0]) ∧
    (-128 : Int) ≠ 128 := by
  refine ⟨by decide, by decide⟩
